import Mathlib

/-!
Verification of the validation & sanitization gateway of a MongoDB MCP
server.  The Python sources are shallowly embedded: Python `dict`s become
association lists, Python `str` becomes `List Char`, Python exceptions
become an `Except` error channel whose error type distinguishes the
exception classes (`ValueError`, `PermissionError`, `RuntimeError`),
and the asynchronous store driver becomes explicit parameters for the
store's responses together with a trace of the calls dispatched to it.
-/

namespace MongoMcp

/-- A Python string, embedded as its list of characters. -/
abbrev PyStr := List Char

/-- Untrusted nested input values, as produced by the JSON/BSON transport:
strings, numbers, booleans, null, BSON ObjectIds, arrays and objects
(Python `dict`s, embedded as association lists in insertion order). -/
inductive JVal where
  | str   : PyStr → JVal
  | intv  : Int → JVal
  | boolv : Bool → JVal
  | nullv : JVal
  | oid   : PyStr → JVal
  | arr   : List JVal → JVal
  | obj   : List (PyStr × JVal) → JVal
  deriving Repr

/-- A Python dict mapping string keys to values (insertion order kept). -/
abbrev Obj := List (PyStr × JVal)

/-! ## security/validator.py — `QueryValidator` -/

/-- The `QueryValidator.SAFE_QUERY_OPERATORS`: allowed query operators in safe
mode. -/
def SAFE_QUERY_OPERATORS : List PyStr :=
  ["$eq".toList, "$ne".toList, "$gt".toList, "$gte".toList, "$lt".toList,
   "$lte".toList, "$in".toList, "$nin".toList, "$exists".toList,
   "$type".toList, "$regex".toList, "$and".toList, "$or".toList,
   "$not".toList, "$nor".toList, "$size".toList, "$elemMatch".toList,
   "$all".toList]

/-- The `QueryValidator.DANGEROUS_OPERATORS`: operators that require explicit
permission. -/
def DANGEROUS_OPERATORS : List PyStr :=
  ["$where".toList, "$expr".toList, "$jsonSchema".toList, "$text".toList]

/-- The validator's error values (Python raises `ValueError` with a
message; we record the kind of message and the offending name). -/
inductive VErr where
  | dangerousOperator (op : PyStr)
  | unknownOperator (op : PyStr)
  | pipelineTooLong
  | stageNotSingleton (i : Nat)
  | dangerousStage (s : PyStr)
  | unknownStage (s : PyStr)
  | expectedString
  | stringTooLong
  | depthExceeded
  | documentTooLarge
  deriving Repr, DecidableEq

/-- The `key.startswith("$")`. -/
def startsWithDollar : PyStr → Bool
  | [] => false
  | c :: _ => c = '$'

/-- The per-key check of `QueryValidator._validate_dict`: a `$`-prefixed
key that is dangerous is rejected unless `allow_dangerous`; a `$`-prefixed
key in neither list is always rejected. -/
def checkKey (allow : Bool) (k : PyStr) : Except VErr Unit :=
  if startsWithDollar k then
    if k ∈ DANGEROUS_OPERATORS ∧ allow = false then
      .error (.dangerousOperator k)
    else if k ∉ SAFE_QUERY_OPERATORS ∧ k ∉ DANGEROUS_OPERATORS then
      .error (.unknownOperator k)
    else .ok ()
  else .ok ()

mutual
/-- The `QueryValidator._validate_dict`: iterate the dict's items in order;
check each key, then recurse into dict values and into dict elements of
list values. -/
def validateDict (allow : Bool) : Obj → Except VErr Unit
  | [] => .ok ()
  | (k, v) :: rest =>
    match checkKey allow k with
    | .error e => .error e
    | .ok _ =>
      match validateValue allow v with
      | .error e => .error e
      | .ok _ => validateDict allow rest

/-- The value half of one loop iteration of `_validate_dict`:
`isinstance(value, dict)` recursion and the list branch. -/
def validateValue (allow : Bool) : JVal → Except VErr Unit
  | .obj fs => validateDict allow fs
  | .arr xs => validateItems allow xs
  | _ => .ok ()

/-- Loop over a list value: recurse into those items that are dicts;
all other items (including nested lists) are skipped. -/
def validateItems (allow : Bool) : List JVal → Except VErr Unit
  | [] => .ok ()
  | .obj fs :: rest =>
    match validateDict allow fs with
    | .error e => .error e
    | .ok _ => validateItems allow rest
  | _ :: rest => validateItems allow rest
end

/-- The `QueryValidator.validate_query(query, allow_dangerous)`. -/
def validate_query (query : Obj) (allow : Bool) : Except VErr Unit :=
  validateDict allow query

/-! ## security/validator.py — `AggregationValidator` -/

/-- The `AggregationValidator.SAFE_STAGES`. -/
def SAFE_STAGES : List PyStr :=
  ["$match".toList, "$project".toList, "$sort".toList, "$limit".toList,
   "$skip".toList, "$group".toList, "$unwind".toList, "$lookup".toList,
   "$addFields".toList, "$count".toList, "$facet".toList, "$bucket".toList,
   "$sample".toList]

/-- The `AggregationValidator.DANGEROUS_STAGES`. -/
def DANGEROUS_STAGES : List PyStr :=
  ["$out".toList, "$merge".toList, "$geoNear".toList, "$graphLookup".toList,
   "$function".toList, "$accumulator".toList, "$expr".toList]

/-- The per-stage loop of `AggregationValidator.validate_pipeline`,
carrying the enumeration index `i`.  A stage must be a dict with exactly
one key (the embedding types stages as dicts, so only the one-key check
remains observable); its single key is the stage name, checked against the
stage lists. -/
def validateStages (allow : Bool) : Nat → List Obj → Except VErr Unit
  | _, [] => .ok ()
  | i, stage :: rest =>
    match stage with
    | [(name, _)] =>
      if name ∈ DANGEROUS_STAGES ∧ allow = false then
        .error (.dangerousStage name)
      else if name ∉ SAFE_STAGES ∧ name ∉ DANGEROUS_STAGES then
        .error (.unknownStage name)
      else validateStages allow (i + 1) rest
    | _ => .error (.stageNotSingleton i)

/-- The `AggregationValidator.validate_pipeline(pipeline, allow_dangerous,
max_stages)`: pipeline length limit, then the per-stage checks. -/
def validate_pipeline (pipeline : List Obj) (allow : Bool)
    (maxStages : Nat) : Except VErr Unit :=
  if pipeline.length > maxStages then .error .pipelineTooLong
  else validateStages allow 0 pipeline

/-! ## security/sanitizer.py — `InputSanitizer` -/

/-- The `InputSanitizer.MAX_STRING_LENGTH`. -/
def MAX_STRING_LENGTH : Nat := 1000

/-- The `InputSanitizer.MAX_QUERY_DEPTH`. -/
def MAX_QUERY_DEPTH : Nat := 10

/-- The `InputSanitizer.MAX_DOCUMENT_SIZE` (the 16MB MongoDB document
limit). -/
def MAX_DOCUMENT_SIZE : Nat := 16 * 1024 * 1024

/-- Membership in the character class removed by `sanitize_string`'s
regex `[\x00-\x08\x0B\x0C\x0E-\x1F\x7F]`. -/
def isCtl (c : Char) : Bool :=
  decide (c.toNat ≤ 0x08) || decide (c.toNat = 0x0B) ||
  decide (c.toNat = 0x0C) ||
  (decide (0x0E ≤ c.toNat) && decide (c.toNat ≤ 0x1F)) ||
  decide (c.toNat = 0x7F)

/-- The whitespace class of Python's `str.strip()` (characters `c` with
`c.isspace()` true): ASCII whitespace, `\x1c`–`\x1f`, NEL, NBSP and the
Unicode space separators. -/
def isPySpace (c : Char) : Bool :=
  decide (c.toNat = 0x20) ||
  (decide (0x09 ≤ c.toNat) && decide (c.toNat ≤ 0x0D)) ||
  (decide (0x1C ≤ c.toNat) && decide (c.toNat ≤ 0x1F)) ||
  decide (c.toNat = 0x85) || decide (c.toNat = 0xA0) ||
  decide (c.toNat = 0x1680) ||
  (decide (0x2000 ≤ c.toNat) && decide (c.toNat ≤ 0x200A)) ||
  decide (c.toNat = 0x2028) || decide (c.toNat = 0x2029) ||
  decide (c.toNat = 0x202F) || decide (c.toNat = 0x205F) ||
  decide (c.toNat = 0x3000)

/-- The regex substitution of `sanitize_string`: remove every control
character of the class. -/
def removeCtl (s : PyStr) : PyStr := s.filter (fun c => !isCtl c)

/-- Python `str.strip()`: drop leading and trailing whitespace. -/
def pyStrip (s : PyStr) : PyStr :=
  (s.dropWhile isPySpace).rdropWhile isPySpace

/-- The `InputSanitizer.sanitize_string`: reject over-long strings, remove
control characters, trim surrounding whitespace.  (The `isinstance(value,
str)` check is discharged by the embedding's types.) -/
def sanitize_string (s : PyStr) : Except VErr PyStr :=
  if s.length > MAX_STRING_LENGTH then .error .stringTooLong
  else .ok (pyStrip (removeCtl s))

mutual
/-- The `InputSanitizer._check_depth(obj, current_depth)`: fail once the
depth exceeds `MAX_QUERY_DEPTH`, recursing into dict values and list
items one level deeper. -/
def check_depth (v : JVal) (d : Nat) : Except VErr Unit :=
  if d > MAX_QUERY_DEPTH then .error .depthExceeded
  else
    match v with
    | .obj fs => checkDepthFields fs d
    | .arr xs => checkDepthItems xs d
    | _ => .ok ()

/-- Loop of `_check_depth` over a dict's values. -/
def checkDepthFields (fs : Obj) (d : Nat) : Except VErr Unit :=
  match fs with
  | [] => .ok ()
  | (_, v) :: rest =>
    match check_depth v (d + 1) with
    | .error e => .error e
    | .ok _ => checkDepthFields rest d

/-- Loop of `_check_depth` over a list's items. -/
def checkDepthItems (xs : List JVal) (d : Nat) : Except VErr Unit :=
  match xs with
  | [] => .ok ()
  | v :: rest =>
    match check_depth v (d + 1) with
    | .error e => .error e
    | .ok _ => checkDepthItems rest d
end

mutual
/-- The `InputSanitizer._sanitize_dict`: rebuild the dict in order, cleaning
every string key, cleaning string values, recursing into dict values, and
mapping list values element-wise (dict elements recursed, string elements
cleaned, every other element — nested lists included — passed through
unchanged). -/
def sanitizeDict : Obj → Except VErr Obj
  | [] => .ok []
  | (k, v) :: rest =>
    match sanitize_string k with
    | .error e => .error e
    | .ok ck =>
      match sanitizeValue v with
      | .error e => .error e
      | .ok cv =>
        match sanitizeDict rest with
        | .error e => .error e
        | .ok crest => .ok ((ck, cv) :: crest)

/-- The value branch of one `_sanitize_dict` iteration. -/
def sanitizeValue : JVal → Except VErr JVal
  | .str s =>
    match sanitize_string s with
    | .error e => .error e
    | .ok cs => .ok (.str cs)
  | .obj fs =>
    match sanitizeDict fs with
    | .error e => .error e
    | .ok cfs => .ok (.obj cfs)
  | .arr xs =>
    match sanitizeItems xs with
    | .error e => .error e
    | .ok cxs => .ok (.arr cxs)
  | v => .ok v

/-- The list comprehension of `_sanitize_dict`: `_sanitize_dict(item)` for
dict items, `sanitize_string(item)` for string items, `item` otherwise. -/
def sanitizeItems : List JVal → Except VErr (List JVal)
  | [] => .ok []
  | .obj fs :: rest =>
    match sanitizeDict fs with
    | .error e => .error e
    | .ok cfs =>
      match sanitizeItems rest with
      | .error e => .error e
      | .ok crest => .ok (.obj cfs :: crest)
  | .str s :: rest =>
    match sanitize_string s with
    | .error e => .error e
    | .ok cs =>
      match sanitizeItems rest with
      | .error e => .error e
      | .ok crest => .ok (.str cs :: crest)
  | x :: rest =>
    match sanitizeItems rest with
    | .error e => .error e
    | .ok crest => .ok (x :: crest)
end

/-- The `InputSanitizer.sanitize_query(query)`: depth check from 0, then the
recursive rebuild. -/
def sanitize_query (query : Obj) : Except VErr Obj :=
  match check_depth (.obj query) 0 with
  | .error e => .error e
  | .ok _ => sanitizeDict query

/-- Length of one character under `json.dumps` (default `ensure_ascii`):
`"` and `\` escape to two characters, the short escapes `\n \t \r \b \f`
to two, other C0 controls to `\uXXXX`, printable ASCII to itself, BMP
non-ASCII to `\uXXXX`, astral characters to a surrogate pair. -/
def jsonCharLen (c : Char) : Nat :=
  if c = '"' ∨ c = '\\' then 2
  else if c.toNat = 0x08 ∨ c.toNat = 0x09 ∨ c.toNat = 0x0A ∨
          c.toNat = 0x0C ∨ c.toNat = 0x0D then 2
  else if c.toNat < 0x20 then 6
  else if c.toNat < 0x80 then 1
  else if c.toNat < 0x10000 then 6
  else 12

/-- Length of a string under `json.dumps`, quotes included. -/
def jsonStrLen (s : PyStr) : Nat := 2 + (s.map jsonCharLen).sum

mutual
/-- Serialized length of a value under `json.dumps(·, default=str)` with
the default `', '`/`': '` separators; `ObjectId`s serialize via `str` as
their 24-character hex form, embedded here as the stored string. -/
def jsonLen : JVal → Nat
  | .str s => jsonStrLen s
  | .intv n => (toString n).length
  | .boolv b => if b then 4 else 5
  | .nullv => 4
  | .oid s => jsonStrLen s
  | .arr xs => 2 + jsonLenItems xs
  | .obj fs => 2 + jsonLenFields fs

/-- Lengths of array items joined by `', '`. -/
def jsonLenItems : List JVal → Nat
  | [] => 0
  | [x] => jsonLen x
  | x :: rest => jsonLen x + 2 + jsonLenItems rest

/-- Lengths of object entries (`"key": value`) joined by `', '`. -/
def jsonLenFields : Obj → Nat
  | [] => 0
  | [(k, v)] => jsonStrLen k + 2 + jsonLen v
  | (k, v) :: rest => jsonStrLen k + 2 + jsonLen v + 2 + jsonLenFields rest
end

/-- The `InputSanitizer.sanitize_document(document)`: serialized-size bound
first, then depth check, then the recursive rebuild. -/
def sanitize_document (document : Obj) : Except VErr Obj :=
  if jsonLen (.obj document) > MAX_DOCUMENT_SIZE then
    .error .documentTooLarge
  else
    match check_depth (.obj document) 0 with
    | .error e => .error e
    | .ok _ => sanitizeDict document

/-! ## handlers/document.py and handlers/aggregation.py

Each handler method becomes a pure function.  The motor driver is
replaced by parameters carrying the store's responses, and each function
additionally returns the trace of calls it dispatched to the store, so
"before any store interaction" is the statement that the trace is empty.
Store-reported failures (`OperationFailure`) are outside the model: the
store parameters are total. -/

/-- Python exception classes reaching the caller.  `RuntimeError` is
raised by the handlers' `except` clauses with a message built from the
wrapped exception, which we keep. -/
inductive PyErr where
  | valueError (k : VErr)
  | permissionError
  | runtimeError (wrapped : PyErr)
  deriving Repr, DecidableEq

/-- One call dispatched to the store driver, with the payload it was
given. -/
inductive StoreOp where
  | findCall (query : Obj) (projection : Option Obj) (sortApplied : Option Obj)
      (skipApplied limitApplied : Option Int)
  | findOneCall (query : Obj) (projection : Option Obj)
  | countCall (query : Obj)
  | insertCall (doc : Obj)
  | updateCall (query update : Obj) (upsert : Bool)
  | deleteCall (query : Obj)
  | aggregateCall (pipeline : List Obj)
  | createIndexCall (keys : Obj)
  deriving Repr

/-- The `_id` normalization done on each returned document: a top-level
`_id` of `ObjectId` type is replaced by its string form. -/
def normalizeId (doc : Obj) : Obj :=
  doc.map fun kv =>
    match kv with
    | (k, .oid s) => if k = "_id".toList then (k, .str s) else (k, .oid s)
    | kv => kv

/-- Result dict of `find_documents`. -/
structure FindOut where
  documents : List Obj
  count : Nat
  hasMore : Bool
  query : Obj
  deriving Repr

/-- The `DocumentHandler.find_documents`.  `storeDocs` are the documents the
store's cursor yields.  A `None` query defaults to `{}` upstream, so the
query parameter is the dict itself.  The broad `except Exception` clause
re-raises any failure as `RuntimeError`, validation and sanitization
failures included. -/
def find_documents (allow : Bool) (query : Obj) (projection : Option Obj)
    (sortp : Option Obj) (limit skip : Int)
    (storeDocs : List Obj) : Except PyErr FindOut × List StoreOp :=
  match validate_query query allow with
  | .error e => (.error (.runtimeError (.valueError e)), [])
  | .ok _ =>
    match sanitize_query query with
    | .error e => (.error (.runtimeError (.valueError e)), [])
    | .ok q =>
      let sortApplied := match sortp with
        | some [] => none
        | some l => some l
        | none => none
      let docs := storeDocs.map normalizeId
      (.ok { documents := docs, count := docs.length,
             hasMore := decide ((docs.length : Int) = limit), query := q },
       [.findCall q projection sortApplied
          (if skip > 0 then some skip else none)
          (if limit > 0 then some limit else none)])

/-- The `DocumentHandler.find_one_document`.  Only `OperationFailure` is
caught, so validation/sanitization errors propagate with their class. -/
def find_one_document (allow : Bool) (query : Obj) (projection : Option Obj)
    (storeDoc : Option Obj) : Except PyErr (Option Obj) × List StoreOp :=
  match validate_query query allow with
  | .error e => (.error (.valueError e), [])
  | .ok _ =>
    match sanitize_query query with
    | .error e => (.error (.valueError e), [])
    | .ok q =>
      (.ok (storeDoc.map normalizeId), [.findOneCall q projection])

/-- The `DocumentHandler.count_documents`. -/
def count_documents (allow : Bool) (query : Obj) (storeCount : Int) :
    Except PyErr Int × List StoreOp :=
  match validate_query query allow with
  | .error e => (.error (.valueError e), [])
  | .ok _ =>
    match sanitize_query query with
    | .error e => (.error (.valueError e), [])
    | .ok q => (.ok storeCount, [.countCall q])

/-- Result dict of `insert_document`. -/
structure InsertOut where
  insertedId : PyStr
  acknowledged : Bool
  deriving Repr, DecidableEq

/-- The `DocumentHandler.insert_document`: the dangerous-mode gate is the
first statement, before the `try` block, so it precedes sanitization and
the store call; no query validation happens here at all. -/
def insert_document (allow : Bool) (document : Obj)
    (storeId : PyStr) (storeAck : Bool) :
    Except PyErr InsertOut × List StoreOp :=
  if allow = false then (.error .permissionError, [])
  else
    match sanitize_document document with
    | .error e => (.error (.valueError e), [])
    | .ok d =>
      (.ok { insertedId := storeId, acknowledged := storeAck },
       [.insertCall d])

/-- Result dict of `update_document`. -/
structure UpdateOut where
  matchedCount : Int
  modifiedCount : Int
  upsertedId : Option PyStr
  acknowledged : Bool
  deriving Repr, DecidableEq

/-- The `DocumentHandler.update_document`: dangerous-mode gate first, then
query validation, query sanitization, update-document sanitization. -/
def update_document (allow : Bool) (query update : Obj) (upsert : Bool)
    (storeMatched storeModified : Int) (storeUpsertedId : Option PyStr)
    (storeAck : Bool) : Except PyErr UpdateOut × List StoreOp :=
  if allow = false then (.error .permissionError, [])
  else
    match validate_query query allow with
    | .error e => (.error (.valueError e), [])
    | .ok _ =>
      match sanitize_query query with
      | .error e => (.error (.valueError e), [])
      | .ok q =>
        match sanitize_document update with
        | .error e => (.error (.valueError e), [])
        | .ok u =>
          (.ok { matchedCount := storeMatched, modifiedCount := storeModified,
                 upsertedId := storeUpsertedId, acknowledged := storeAck },
           [.updateCall q u upsert])

/-- Result dict of `delete_document`. -/
structure DeleteOut where
  deletedCount : Int
  acknowledged : Bool
  deriving Repr, DecidableEq

/-- The `DocumentHandler.delete_document`: dangerous-mode gate first, then
query validation and sanitization. -/
def delete_document (allow : Bool) (query : Obj)
    (storeDeleted : Int) (storeAck : Bool) :
    Except PyErr DeleteOut × List StoreOp :=
  if allow = false then (.error .permissionError, [])
  else
    match validate_query query allow with
    | .error e => (.error (.valueError e), [])
    | .ok _ =>
      match sanitize_query query with
      | .error e => (.error (.valueError e), [])
      | .ok q => (.ok { deletedCount := storeDeleted, acknowledged := storeAck },
                  [.deleteCall q])

/-- Result dict of `aggregate_pipeline`. -/
structure AggOut where
  results : List Obj
  count : Nat
  pipeline : List Obj
  hasMore : Bool
  deriving Repr

/-- The per-stage sanitization loop of `aggregate_pipeline`: each stage
goes through `InputSanitizer.sanitize_query`. -/
def sanitizePipeline : List Obj → Except VErr (List Obj)
  | [] => .ok []
  | st :: rest =>
    match sanitize_query st with
    | .error e => .error e
    | .ok cst =>
      match sanitizePipeline rest with
      | .error e => .error e
      | .ok crest => .ok (cst :: crest)

/-- The `any('$limit' in stage for stage in sanitized_pipeline)`. -/
def hasLimitStage (pipeline : List Obj) : Bool :=
  pipeline.any fun st => st.any fun kv => decide (kv.1 = "$limit".toList)

/-- The `AggregationHandler.aggregate_pipeline`: validate, sanitize each
stage, append an implicit `{"$limit": limit}` stage when no stage has a
`$limit` key and `limit > 0`, dispatch, and report the store's documents
with `hasMore = (count == limit)`.  The broad `except Exception` clause
re-raises validation/sanitization failures as `RuntimeError`. -/
def aggregate_pipeline (allow : Bool) (pipeline : List Obj)
    (limit : Int) (maxStages : Nat) (storeResults : List Obj) :
    Except PyErr AggOut × List StoreOp :=
  match validate_pipeline pipeline allow maxStages with
  | .error e => (.error (.runtimeError (.valueError e)), [])
  | .ok _ =>
    match sanitizePipeline pipeline with
    | .error e => (.error (.runtimeError (.valueError e)), [])
    | .ok sp =>
      let sp2 := if ¬hasLimitStage sp ∧ limit > 0 then
          sp ++ [[("$limit".toList, .intv limit)]] else sp
      let results := storeResults.map normalizeId
      (.ok { results := results, count := results.length, pipeline := sp2,
             hasMore := decide ((results.length : Int) = limit) },
       [.aggregateCall sp2])

/-- Result dict of `explain_aggregation`. -/
structure ExplainOut where
  executionPlan : Obj
  pipeline : List Obj
  deriving Repr

/-- The `$explain` stage `explain_aggregation` appends. -/
def explainStage : Obj :=
  [("$explain".toList,
    .obj [("verbosity".toList, .str "executionStats".toList)])]

/-- The `AggregationHandler.explain_aggregation`: validates (default
`max_stages`), does not sanitize, dispatches the pipeline plus an
`$explain` stage; only `OperationFailure` is caught, so validation errors
propagate with their class. -/
def explain_aggregation (allow : Bool) (pipeline : List Obj)
    (storePlan : Option Obj) : Except PyErr ExplainOut × List StoreOp :=
  match validate_pipeline pipeline allow 20 with
  | .error e => (.error (.valueError e), [])
  | .ok _ =>
    (.ok { executionPlan := storePlan.getD [], pipeline := pipeline },
     [.aggregateCall (pipeline ++ [explainStage])])

/-- Result dict of `create_index`. -/
structure IndexOut where
  indexName : PyStr
  keys : Obj
  deriving Repr

/-- The `AggregationHandler.create_index`: dangerous-mode gate first; no
validation or sanitization at all, then the store call. -/
def create_index (allow : Bool) (keys : Obj) (storeName : PyStr) :
    Except PyErr IndexOut × List StoreOp :=
  if allow = false then (.error .permissionError, [])
  else (.ok { indexName := storeName, keys := keys }, [.createIndexCall keys])

/-! ## Observation functions used to state the properties -/

/-- Whether an `Except` result is an error (a raised exception). -/
def isErr {ε α : Type} : Except ε α → Bool
  | .error _ => true
  | .ok _ => false

mutual
/-- Some key satisfying `P` occurs at a position the validator's
traversal reaches: in the mapping itself, in a nested mapping value, or
in a mapping element of a sequence value. -/
def dictHasKey (P : PyStr → Bool) : Obj → Bool
  | [] => false
  | (k, v) :: rest => P k || valHasKey P v || dictHasKey P rest

/-- The `dictHasKey` lifted to a value. -/
def valHasKey (P : PyStr → Bool) : JVal → Bool
  | .obj fs => dictHasKey P fs
  | .arr xs => itemsHaveKey P xs
  | _ => false

/-- The `dictHasKey` over the mapping elements of a sequence (matching the
validator, non-mapping elements are not descended into). -/
def itemsHaveKey (P : PyStr → Bool) : List JVal → Bool
  | [] => false
  | .obj fs :: rest => dictHasKey P fs || itemsHaveKey P rest
  | _ :: rest => itemsHaveKey P rest
end

mutual
/-- Every key at a position the validator's traversal reaches satisfies
`Q`. -/
def dictAllKeys (Q : PyStr → Bool) : Obj → Bool
  | [] => true
  | (k, v) :: rest => Q k && valAllKeys Q v && dictAllKeys Q rest

/-- The `dictAllKeys` lifted to a value. -/
def valAllKeys (Q : PyStr → Bool) : JVal → Bool
  | .obj fs => dictAllKeys Q fs
  | .arr xs => itemsAllKeys Q xs
  | _ => true

/-- The `dictAllKeys` over the mapping elements of a sequence. -/
def itemsAllKeys (Q : PyStr → Bool) : List JVal → Bool
  | [] => true
  | .obj fs :: rest => dictAllKeys Q fs && itemsAllKeys Q rest
  | _ :: rest => itemsAllKeys Q rest
end

/-- The key is a dangerous operator. -/
def isDangerousKey (k : PyStr) : Bool := decide (k ∈ DANGEROUS_OPERATORS)

/-- The key passes the validator's per-key check in every mode: either it
has no operator prefix, or it is in one of the two operator lists. -/
def isKnownKey (k : PyStr) : Bool :=
  !startsWithDollar k || decide (k ∈ SAFE_QUERY_OPERATORS) ||
    decide (k ∈ DANGEROUS_OPERATORS)

/-- The key is an operator-prefixed key in neither operator list. -/
def isUnknownOpKey (k : PyStr) : Bool :=
  startsWithDollar k && !decide (k ∈ SAFE_QUERY_OPERATORS) &&
    !decide (k ∈ DANGEROUS_OPERATORS)

mutual
/-- Nesting depth of a value: the largest number of container edges on a
path from the root to any node (a scalar or empty container has depth
0). -/
def depthOf : JVal → Nat
  | .obj fs => depthOfFields fs
  | .arr xs => depthOfItems xs
  | _ => 0

/-- Depth contributed by a mapping's entries. -/
def depthOfFields : Obj → Nat
  | [] => 0
  | (_, v) :: rest => max (1 + depthOf v) (depthOfFields rest)

/-- Depth contributed by a sequence's elements. -/
def depthOfItems : List JVal → Nat
  | [] => 0
  | v :: rest => max (1 + depthOf v) (depthOfItems rest)
end

/-- A string that `sanitize_string` maps to itself (short enough, no
control characters to remove, no surrounding whitespace to trim). -/
def cleanStr (s : PyStr) : Bool :=
  decide (s.length ≤ MAX_STRING_LENGTH) && decide (pyStrip (removeCtl s) = s)

mutual
/-- Every string anywhere in the value (keys included) is already
clean. -/
def vClean : JVal → Bool
  | .str s => cleanStr s
  | .obj fs => fieldsClean fs
  | .arr xs => itemsClean xs
  | _ => true

/-- The `vClean` over a mapping's entries, keys included. -/
def fieldsClean : Obj → Bool
  | [] => true
  | (k, v) :: rest => cleanStr k && vClean v && fieldsClean rest

/-- The `vClean` over a sequence's elements. -/
def itemsClean : List JVal → Bool
  | [] => true
  | v :: rest => vClean v && itemsClean rest
end

mutual
/-- Every string at a position the sanitizer cleans is clean in this
mapping: all keys, all string values, recursively through mapping values
and through mapping/string elements of sequences.  Strings inside
sequences nested directly within sequences are not required clean (the
sanitizer does not touch them). -/
def touchedCleanFields : Obj → Bool
  | [] => true
  | (k, v) :: rest => cleanStr k && touchedCleanVal v && touchedCleanFields rest

/-- The `touchedCleanFields` condition, value form. -/
def touchedCleanVal : JVal → Bool
  | .str s => cleanStr s
  | .obj fs => touchedCleanFields fs
  | .arr xs => touchedCleanItems xs
  | _ => true

/-- The `touchedCleanFields` condition over a sequence's elements:
mapping elements recursively clean, string elements clean, all other
elements (nested sequences included) unconstrained. -/
def touchedCleanItems : List JVal → Bool
  | [] => true
  | .obj fs :: rest => touchedCleanFields fs && touchedCleanItems rest
  | .str s :: rest => cleanStr s && touchedCleanItems rest
  | _ :: rest => touchedCleanItems rest
end

/-- The structural shape of a value: everything except string contents. -/
inductive JShape where
  | strS | intS (n : Int) | boolS (b : Bool) | nullS | oidS
  | arrS (xs : List JShape)
  | objS (fs : List JShape)
  deriving Repr

mutual
/-- Erase string contents, keeping the structure (and non-string scalar
contents). -/
def shapeOf : JVal → JShape
  | .str _ => .strS
  | .intv n => .intS n
  | .boolv b => .boolS b
  | .nullv => .nullS
  | .oid _ => .oidS
  | .arr xs => .arrS (shapeOfItems xs)
  | .obj fs => .objS (shapeOfFields fs)

/-- Shapes of a mapping's values (one entry per key, in order). -/
def shapeOfFields : Obj → List JShape
  | [] => []
  | (_, v) :: rest => shapeOf v :: shapeOfFields rest

/-- Shapes of a sequence's elements. -/
def shapeOfItems : List JVal → List JShape
  | [] => []
  | v :: rest => shapeOf v :: shapeOfItems rest
end

/-- The implicit limiting stage `{"$limit": n}`. -/
def limitStage (n : Int) : Obj := [("$limit".toList, .intv n)]


/-! # Theorems -/

/-- Every dangerous operator begins with the operator prefix. -/
theorem dangerous_startsWithDollar {k : PyStr} (h : k ∈ DANGEROUS_OPERATORS) :
    startsWithDollar k = true := by
  fin_cases h <;> rfl

/-- In dangerous mode the per-key check passes every known key. -/
theorem checkKey_true_ok {k : PyStr} (h : isKnownKey k = true) :
    checkKey true k = .ok () := by
  unfold isKnownKey at h
  unfold checkKey
  by_cases hd : startsWithDollar k = true
  · simp [hd] at h ⊢
    rcases h with h | h <;> simp [h]
  · simp [hd]

/-- In safe mode the per-key check rejects every dangerous operator. -/
theorem checkKey_false_dangerous {k : PyStr} (h : k ∈ DANGEROUS_OPERATORS) :
    checkKey false k = .error (.dangerousOperator k) := by
  simp [checkKey, dangerous_startsWithDollar h, h]

/-- The per-key check rejects an unknown operator key in both modes. -/
theorem checkKey_unknown {k : PyStr} (h : isUnknownOpKey k = true)
    (allow : Bool) : checkKey allow k = .error (.unknownOperator k) := by
  unfold isUnknownOpKey at h
  simp only [Bool.and_eq_true, Bool.not_eq_true', decide_eq_false_iff_not] at h
  obtain ⟨⟨hd, hs⟩, hdg⟩ := h
  simp [checkKey, hd, hs, hdg]

mutual
/-- When every reachable key is known, dangerous-mode validation
accepts. -/
theorem validateDict_allKnown_ok : ∀ (fs : Obj),
    dictAllKeys isKnownKey fs = true → validateDict true fs = .ok ()
  | [], _ => rfl
  | (k, v) :: rest, h => by
    unfold dictAllKeys at h
    simp only [Bool.and_eq_true] at h
    obtain ⟨⟨hk, hv⟩, hrest⟩ := h
    simp only [validateDict, checkKey_true_ok hk,
      validateValue_allKnown_ok v hv, validateDict_allKnown_ok rest hrest]

/-- The `validateDict_allKnown_ok`, value form. -/
theorem validateValue_allKnown_ok : ∀ (v : JVal),
    valAllKeys isKnownKey v = true → validateValue true v = .ok ()
  | .obj fs, h => validateDict_allKnown_ok fs h
  | .arr xs, h => validateItems_allKnown_ok xs h
  | .str _, _ => rfl
  | .intv _, _ => rfl
  | .boolv _, _ => rfl
  | .nullv, _ => rfl
  | .oid _, _ => rfl

/-- The `validateDict_allKnown_ok`, sequence-elements form. -/
theorem validateItems_allKnown_ok : ∀ (xs : List JVal),
    itemsAllKeys isKnownKey xs = true → validateItems true xs = .ok ()
  | [], _ => rfl
  | .obj fs :: rest, h => by
    unfold itemsAllKeys at h
    simp only [Bool.and_eq_true] at h
    obtain ⟨hf, hrest⟩ := h
    simp only [validateItems, validateDict_allKnown_ok fs hf,
      validateItems_allKnown_ok rest hrest]
  | .str s :: rest, h => validateItems_allKnown_ok rest h
  | .intv n :: rest, h => validateItems_allKnown_ok rest h
  | .boolv b :: rest, h => validateItems_allKnown_ok rest h
  | .nullv :: rest, h => validateItems_allKnown_ok rest h
  | .oid s :: rest, h => validateItems_allKnown_ok rest h
  | .arr ys :: rest, h => validateItems_allKnown_ok rest h
end

mutual
/-- When a reachable key is a dangerous operator, safe-mode validation
raises (some) error. -/
theorem validateDict_dangerous_err : ∀ (fs : Obj),
    dictHasKey isDangerousKey fs = true → isErr (validateDict false fs) = true
  | (k, v) :: rest, h => by
    unfold dictHasKey at h
    simp only [Bool.or_eq_true] at h
    unfold validateDict
    rcases h with (hk | hv) | hrest
    · unfold isDangerousKey at hk
      rw [checkKey_false_dangerous (of_decide_eq_true hk)]
      rfl
    · cases hc : checkKey false k with
      | error e => rfl
      | ok u =>
        have := validateValue_dangerous_err v hv
        cases hv2 : validateValue false v with
        | error e => rfl
        | ok u2 => rw [hv2] at this; exact absurd this (by simp [isErr])
    · cases hc : checkKey false k with
      | error e => rfl
      | ok u =>
        cases hv2 : validateValue false v with
        | error e => rfl
        | ok u2 => exact validateDict_dangerous_err rest hrest

/-- The `validateDict_dangerous_err`, value form. -/
theorem validateValue_dangerous_err : ∀ (v : JVal),
    valHasKey isDangerousKey v = true → isErr (validateValue false v) = true
  | .obj fs, h => validateDict_dangerous_err fs h
  | .arr xs, h => validateItems_dangerous_err xs h

/-- The `validateDict_dangerous_err`, sequence-elements form. -/
theorem validateItems_dangerous_err : ∀ (xs : List JVal),
    itemsHaveKey isDangerousKey xs = true → isErr (validateItems false xs) = true
  | .obj fs :: rest, h => by
    unfold itemsHaveKey at h
    simp only [Bool.or_eq_true] at h
    unfold validateItems
    rcases h with hf | hrest
    · have := validateDict_dangerous_err fs hf
      cases hd : validateDict false fs with
      | error e => rfl
      | ok u => rw [hd] at this; exact absurd this (by simp [isErr])
    · cases hd : validateDict false fs with
      | error e => rfl
      | ok u => exact validateItems_dangerous_err rest hrest
  | .str s :: rest, h => validateItems_dangerous_err rest h
  | .intv n :: rest, h => validateItems_dangerous_err rest h
  | .boolv b :: rest, h => validateItems_dangerous_err rest h
  | .nullv :: rest, h => validateItems_dangerous_err rest h
  | .oid s :: rest, h => validateItems_dangerous_err rest h
  | .arr ys :: rest, h => validateItems_dangerous_err rest h
end

mutual
/-- When a reachable key is an unknown operator, validation raises in
both modes. -/
theorem validateDict_unknown_err : ∀ (allow : Bool) (fs : Obj),
    dictHasKey isUnknownOpKey fs = true → isErr (validateDict allow fs) = true
  | allow, (k, v) :: rest, h => by
    unfold dictHasKey at h
    simp only [Bool.or_eq_true] at h
    unfold validateDict
    rcases h with (hk | hv) | hrest
    · rw [checkKey_unknown hk allow]; rfl
    · cases hc : checkKey allow k with
      | error e => rfl
      | ok u =>
        have := validateValue_unknown_err allow v hv
        cases hv2 : validateValue allow v with
        | error e => rfl
        | ok u2 => rw [hv2] at this; exact absurd this (by simp [isErr])
    · cases hc : checkKey allow k with
      | error e => rfl
      | ok u =>
        cases hv2 : validateValue allow v with
        | error e => rfl
        | ok u2 => exact validateDict_unknown_err allow rest hrest

/-- The `validateDict_unknown_err`, value form. -/
theorem validateValue_unknown_err : ∀ (allow : Bool) (v : JVal),
    valHasKey isUnknownOpKey v = true → isErr (validateValue allow v) = true
  | allow, .obj fs, h => validateDict_unknown_err allow fs h
  | allow, .arr xs, h => validateItems_unknown_err allow xs h

/-- The `validateDict_unknown_err`, sequence-elements form. -/
theorem validateItems_unknown_err : ∀ (allow : Bool) (xs : List JVal),
    itemsHaveKey isUnknownOpKey xs = true → isErr (validateItems allow xs) = true
  | allow, .obj fs :: rest, h => by
    unfold itemsHaveKey at h
    simp only [Bool.or_eq_true] at h
    unfold validateItems
    rcases h with hf | hrest
    · have := validateDict_unknown_err allow fs hf
      cases hd : validateDict allow fs with
      | error e => rfl
      | ok u => rw [hd] at this; exact absurd this (by simp [isErr])
    · cases hd : validateDict allow fs with
      | error e => rfl
      | ok u => exact validateItems_unknown_err allow rest hrest
  | allow, .str s :: rest, h => validateItems_unknown_err allow rest h
  | allow, .intv n :: rest, h => validateItems_unknown_err allow rest h
  | allow, .boolv b :: rest, h => validateItems_unknown_err allow rest h
  | allow, .nullv :: rest, h => validateItems_unknown_err allow rest h
  | allow, .oid s :: rest, h => validateItems_unknown_err allow rest h
  | allow, .arr ys :: rest, h => validateItems_unknown_err allow rest h
end


/-- A singleton stage with a name in neither stage list makes the stage
loop fail, from any starting index. -/
theorem validateStages_unknown_err (allow : Bool) (name : PyStr) (body : JVal)
    (hs : name ∉ SAFE_STAGES) (hd : name ∉ DANGEROUS_STAGES) :
    ∀ (i : Nat) (pipeline : List Obj), [(name, body)] ∈ pipeline →
      isErr (validateStages allow i pipeline) = true := by
  intro i pipeline hmem
  induction pipeline generalizing i with
  | nil => cases hmem
  | cons st rest ih =>
    rcases List.mem_cons.mp hmem with hst | hrest
    · subst hst
      unfold validateStages
      have : ¬(name ∈ DANGEROUS_STAGES ∧ allow = false) := fun hc => hd hc.1
      simp only [this, if_false, hs, hd]
      simp [isErr]
    · unfold validateStages
      cases st with
      | nil => rfl
      | cons kv tail =>
        cases kv with
        | mk k v =>
          cases tail with
          | nil =>
            by_cases h1 : k ∈ DANGEROUS_STAGES ∧ allow = false
            · simp [h1, isErr]
            · simp only [h1, if_false]
              by_cases h2 : k ∉ SAFE_STAGES ∧ k ∉ DANGEROUS_STAGES
              · simp [h2, isErr]
              · simp only [h2, if_false]
                exact ih (i + 1) hrest
          | cons kv2 tail2 => rfl

/-- C2, as stated, is false in both directions: a query holding both
`$where` (dangerous) and `$custom` (unknown) is rejected even with
dangerous_mode=true, and a `$where` key inside a sequence nested directly
inside another sequence is accepted even with dangerous_mode=false. -/
theorem c2_counterexample :
    validate_query [("$where".toList, JVal.str "x".toList),
                    ("$custom".toList, JVal.intv 1)] true
      = .error (.unknownOperator "$custom".toList) ∧
    validate_query [("a".toList, JVal.arr [JVal.arr
        [JVal.obj [("$where".toList, JVal.str "x".toList)]]])] false
      = .ok () :=
  ⟨rfl, rfl⟩

/-- C2 (amended): for a query with a dangerous operator at a position the
recursion reaches (nested mappings and mapping elements of sequences) and
with every reachable operator-prefixed key in SAFE ∪ DANGEROUS,
`validate_query` rejects iff dangerous_mode=false and accepts iff
dangerous_mode=true. -/
theorem c2_dangerous_rejected_iff_safe_mode (q : Obj)
    (hd : dictHasKey isDangerousKey q = true)
    (hk : dictAllKeys isKnownKey q = true) :
    isErr (validate_query q false) = true ∧ validate_query q true = .ok () :=
  ⟨validateDict_dangerous_err q hd, validateDict_allKnown_ok q hk⟩

/-- Witness for C2 (amended) at the query `{"$where": "1 == 1"}`. -/
theorem c2_dangerous_rejected_iff_safe_mode_witness :
    isErr (validate_query [("$where".toList, JVal.str "1 == 1".toList)] false)
        = true ∧
    validate_query [("$where".toList, JVal.str "1 == 1".toList)] true
        = .ok () :=
  c2_dangerous_rejected_iff_safe_mode
    [("$where".toList, JVal.str "1 == 1".toList)] rfl rfl

/-- C3, as stated, is false: the unknown operator `$custom` inside a
sequence nested directly inside another sequence passes `validate_query`
in both modes (the traversal does not descend into sequences of
sequences). -/
theorem c3_counterexample :
    validate_query [("a".toList, JVal.arr [JVal.arr
        [JVal.obj [("$custom".toList, JVal.intv 1)]]])] false = .ok () ∧
    validate_query [("a".toList, JVal.arr [JVal.arr
        [JVal.obj [("$custom".toList, JVal.intv 1)]]])] true = .ok () :=
  ⟨rfl, rfl⟩

/-- C3 (amended): a query with an operator-prefixed key outside
SAFE ∪ DANGEROUS at a position the recursion reaches (nested mappings and
mapping elements of sequences) is rejected regardless of
dangerous_mode. -/
theorem c3_unknown_operator_always_rejected (q : Obj) (allow : Bool)
    (h : dictHasKey isUnknownOpKey q = true) :
    isErr (validate_query q allow) = true :=
  validateDict_unknown_err allow q h

/-- Witness for C3 (amended) at the query `{"$custom": 1}`, both modes. -/
theorem c3_unknown_operator_always_rejected_witness :
    isErr (validate_query [("$custom".toList, JVal.intv 1)] false) = true ∧
    isErr (validate_query [("$custom".toList, JVal.intv 1)] true) = true :=
  ⟨c3_unknown_operator_always_rejected [("$custom".toList, JVal.intv 1)]
      false rfl,
   c3_unknown_operator_always_rejected [("$custom".toList, JVal.intv 1)]
      true rfl⟩

/-- C4 (confirmed): a pipeline containing a singleton stage whose name is
in neither SAFE_STAGES nor DANGEROUS_STAGES is rejected by
`validate_pipeline` regardless of dangerous_mode. -/
theorem c4_unknown_stage_always_rejected (pipeline : List Obj) (allow : Bool)
    (maxStages : Nat) (name : PyStr) (body : JVal)
    (hmem : [(name, body)] ∈ pipeline)
    (hs : name ∉ SAFE_STAGES) (hd : name ∉ DANGEROUS_STAGES) :
    isErr (validate_pipeline pipeline allow maxStages) = true := by
  unfold validate_pipeline
  by_cases hl : pipeline.length > maxStages
  · simp [hl, isErr]
  · simp only [hl, if_false]
    exact validateStages_unknown_err allow name body hs hd 0 pipeline hmem

/-- Witness for C4 at the pipeline `[{"$foobar": 1}]`, both modes. -/
theorem c4_unknown_stage_always_rejected_witness :
    isErr (validate_pipeline [[("$foobar".toList, JVal.intv 1)]] false 20)
        = true ∧
    isErr (validate_pipeline [[("$foobar".toList, JVal.intv 1)]] true 20)
        = true :=
  ⟨c4_unknown_stage_always_rejected [[("$foobar".toList, JVal.intv 1)]]
      false 20 "$foobar".toList (JVal.intv 1) (by simp) (by decide) (by decide),
   c4_unknown_stage_always_rejected [[("$foobar".toList, JVal.intv 1)]]
      true 20 "$foobar".toList (JVal.intv 1) (by simp) (by decide) (by decide)⟩


/-- Arithmetic bridge: bounding a mapping's depth bounds each entry one
level deeper. -/
theorem fields_depth_iff (fs : Obj) (n : Nat) (hn : n ≤ MAX_QUERY_DEPTH) :
    (n + depthOfFields fs ≤ MAX_QUERY_DEPTH ↔
      ∀ p ∈ fs, n + 1 + depthOf p.2 ≤ MAX_QUERY_DEPTH) := by
  induction fs with
  | nil => simpa [depthOfFields] using hn
  | cons p rest ih =>
    cases p with
    | mk k v =>
      simp only [depthOfFields, List.forall_mem_cons]
      constructor
      · intro h
        refine ⟨?_, ih.mp (by omega)⟩
        show n + 1 + depthOf v ≤ MAX_QUERY_DEPTH
        omega
      · rintro ⟨h1, h2⟩
        have h1b : n + 1 + depthOf v ≤ MAX_QUERY_DEPTH := h1
        have := ih.mpr h2
        omega

/-- Arithmetic bridge: bounding a sequence's depth bounds each element
one level deeper. -/
theorem items_depth_iff (xs : List JVal) (n : Nat) (hn : n ≤ MAX_QUERY_DEPTH) :
    (n + depthOfItems xs ≤ MAX_QUERY_DEPTH ↔
      ∀ v ∈ xs, n + 1 + depthOf v ≤ MAX_QUERY_DEPTH) := by
  induction xs with
  | nil => simpa [depthOfItems] using hn
  | cons v rest ih =>
    simp only [depthOfItems, List.forall_mem_cons]
    constructor
    · intro h
      exact ⟨by omega, ih.mp (by omega)⟩
    · rintro ⟨h1, h2⟩
      have := ih.mpr h2
      omega

mutual
/-- The `_check_depth` from running depth `n` succeeds exactly when `n` plus
the value's nesting depth stays within the bound. -/
theorem check_depth_ok_iff : ∀ (v : JVal) (n : Nat),
    check_depth v n = .ok () ↔ n + depthOf v ≤ MAX_QUERY_DEPTH
  | .obj fs, n => by
    unfold check_depth depthOf
    by_cases hn : n > MAX_QUERY_DEPTH
    · simp only [hn, if_true]
      constructor
      · intro h; exact absurd h (by simp)
      · intro h; omega
    · simp only [hn, if_false]
      rw [checkDepthFields_ok_iff fs n]
      exact (fields_depth_iff fs n (by omega)).symm
  | .arr xs, n => by
    unfold check_depth depthOf
    by_cases hn : n > MAX_QUERY_DEPTH
    · simp only [hn, if_true]
      constructor
      · intro h; exact absurd h (by simp)
      · intro h; omega
    · simp only [hn, if_false]
      rw [checkDepthItems_ok_iff xs n]
      exact (items_depth_iff xs n (by omega)).symm
  | .str s, n => by
    unfold check_depth depthOf
    by_cases hn : n > MAX_QUERY_DEPTH
    · simp only [hn, if_true]
      constructor
      · intro h; exact absurd h (by simp)
      · intro h; omega
    · simp only [hn, if_false]
      constructor
      · intro _; omega
      · intro _; trivial
  | .intv m, n => by
    unfold check_depth depthOf
    by_cases hn : n > MAX_QUERY_DEPTH
    · simp only [hn, if_true]
      constructor
      · intro h; exact absurd h (by simp)
      · intro h; omega
    · simp only [hn, if_false]
      constructor
      · intro _; omega
      · intro _; trivial
  | .boolv b, n => by
    unfold check_depth depthOf
    by_cases hn : n > MAX_QUERY_DEPTH
    · simp only [hn, if_true]
      constructor
      · intro h; exact absurd h (by simp)
      · intro h; omega
    · simp only [hn, if_false]
      constructor
      · intro _; omega
      · intro _; trivial
  | .nullv, n => by
    unfold check_depth depthOf
    by_cases hn : n > MAX_QUERY_DEPTH
    · simp only [hn, if_true]
      constructor
      · intro h; exact absurd h (by simp)
      · intro h; omega
    · simp only [hn, if_false]
      constructor
      · intro _; omega
      · intro _; trivial
  | .oid s, n => by
    unfold check_depth depthOf
    by_cases hn : n > MAX_QUERY_DEPTH
    · simp only [hn, if_true]
      constructor
      · intro h; exact absurd h (by simp)
      · intro h; omega
    · simp only [hn, if_false]
      constructor
      · intro _; omega
      · intro _; trivial

/-- The `check_depth_ok_iff`, mapping-entries loop form. -/
theorem checkDepthFields_ok_iff : ∀ (fs : Obj) (n : Nat),
    checkDepthFields fs n = .ok () ↔
      ∀ p ∈ fs, n + 1 + depthOf p.2 ≤ MAX_QUERY_DEPTH
  | [], n => by simp [checkDepthFields]
  | (k, v) :: rest, n => by
    unfold checkDepthFields
    rw [List.forall_mem_cons]
    have hv := check_depth_ok_iff v (n + 1)
    cases hcd : check_depth v (n + 1) with
    | error e =>
      rw [hcd] at hv
      constructor
      · intro h; exact absurd h (by simp)
      · rintro ⟨h1, _⟩
        exact absurd (hv.mpr h1) (by simp)
    | ok u =>
      cases u
      rw [hcd] at hv
      rw [checkDepthFields_ok_iff rest n]
      constructor
      · intro h
        exact ⟨hv.mp rfl, h⟩
      · rintro ⟨_, h2⟩; exact h2

/-- The `check_depth_ok_iff`, sequence-elements loop form. -/
theorem checkDepthItems_ok_iff : ∀ (xs : List JVal) (n : Nat),
    checkDepthItems xs n = .ok () ↔
      ∀ v ∈ xs, n + 1 + depthOf v ≤ MAX_QUERY_DEPTH
  | [], n => by simp [checkDepthItems]
  | v :: rest, n => by
    unfold checkDepthItems
    rw [List.forall_mem_cons]
    have hv := check_depth_ok_iff v (n + 1)
    cases hcd : check_depth v (n + 1) with
    | error e =>
      rw [hcd] at hv
      constructor
      · intro h; exact absurd h (by simp)
      · rintro ⟨h1, _⟩
        exact absurd (hv.mpr h1) (by simp)
    | ok u =>
      cases u
      rw [hcd] at hv
      rw [checkDepthItems_ok_iff rest n]
      constructor
      · intro h
        exact ⟨hv.mp rfl, h⟩
      · rintro ⟨_, h2⟩; exact h2
end

mutual
/-- The only error `_check_depth` ever raises is the depth-exceeded
one. -/
theorem check_depth_ok_or_depthExceeded : ∀ (v : JVal) (n : Nat),
    check_depth v n = .ok () ∨ check_depth v n = .error .depthExceeded
  | .obj fs, n => by
    unfold check_depth
    by_cases hn : n > MAX_QUERY_DEPTH
    · simp [hn]
    · simp only [hn, if_false]
      exact checkDepthFields_ok_or_depthExceeded fs n
  | .arr xs, n => by
    unfold check_depth
    by_cases hn : n > MAX_QUERY_DEPTH
    · simp [hn]
    · simp only [hn, if_false]
      exact checkDepthItems_ok_or_depthExceeded xs n
  | .str s, n => by
    unfold check_depth
    by_cases hn : n > MAX_QUERY_DEPTH <;> simp [hn]
  | .intv m, n => by
    unfold check_depth
    by_cases hn : n > MAX_QUERY_DEPTH <;> simp [hn]
  | .boolv b, n => by
    unfold check_depth
    by_cases hn : n > MAX_QUERY_DEPTH <;> simp [hn]
  | .nullv, n => by
    unfold check_depth
    by_cases hn : n > MAX_QUERY_DEPTH <;> simp [hn]
  | .oid s, n => by
    unfold check_depth
    by_cases hn : n > MAX_QUERY_DEPTH <;> simp [hn]

/-- The `check_depth_ok_or_depthExceeded`, mapping-entries loop form. -/
theorem checkDepthFields_ok_or_depthExceeded : ∀ (fs : Obj) (n : Nat),
    checkDepthFields fs n = .ok () ∨
      checkDepthFields fs n = .error .depthExceeded
  | [], n => Or.inl rfl
  | (k, v) :: rest, n => by
    unfold checkDepthFields
    rcases check_depth_ok_or_depthExceeded v (n + 1) with h | h <;> rw [h]
    · exact checkDepthFields_ok_or_depthExceeded rest n
    · exact Or.inr rfl

/-- The `check_depth_ok_or_depthExceeded`, sequence-elements loop form. -/
theorem checkDepthItems_ok_or_depthExceeded : ∀ (xs : List JVal) (n : Nat),
    checkDepthItems xs n = .ok () ∨
      checkDepthItems xs n = .error .depthExceeded
  | [], n => Or.inl rfl
  | v :: rest, n => by
    unfold checkDepthItems
    rcases check_depth_ok_or_depthExceeded v (n + 1) with h | h <;> rw [h]
    · exact checkDepthItems_ok_or_depthExceeded rest n
    · exact Or.inr rfl
end

/-- C7 (confirmed): `_check_depth` from depth 0 succeeds iff the
structure's nesting depth is at most 10, and a structure of depth 11
fails with the depth-exceeded error. -/
theorem c7_check_depth_iff_depth_le_10 (v : JVal) :
    (check_depth v 0 = .ok () ↔ depthOf v ≤ MAX_QUERY_DEPTH) ∧
    (depthOf v = 11 → check_depth v 0 = .error .depthExceeded) := by
  have h := check_depth_ok_iff v 0
  rw [Nat.zero_add] at h
  refine ⟨h, fun h11 => ?_⟩
  rcases check_depth_ok_or_depthExceeded v 0 with hok | herr
  · have := h.mp hok
    rw [h11] at this
    exact absurd this (by simp [MAX_QUERY_DEPTH])
  · exact herr

/-- Witness for C7: an 11-deep nesting fails with the depth-exceeded
error, and a 10-deep one passes. -/
theorem c7_check_depth_iff_depth_le_10_witness :
    check_depth
      (JVal.arr [JVal.arr [JVal.arr [JVal.arr [JVal.arr [JVal.arr [JVal.arr
        [JVal.arr [JVal.arr [JVal.arr [JVal.arr [JVal.intv 1]]]]]]]]]]]) 0
      = .error .depthExceeded ∧
    check_depth
      (JVal.arr [JVal.arr [JVal.arr [JVal.arr [JVal.arr [JVal.arr [JVal.arr
        [JVal.arr [JVal.arr [JVal.arr [JVal.intv 1]]]]]]]]]]) 0
      = .ok () :=
  ⟨(c7_check_depth_iff_depth_le_10
      (JVal.arr [JVal.arr [JVal.arr [JVal.arr [JVal.arr [JVal.arr [JVal.arr
        [JVal.arr [JVal.arr [JVal.arr [JVal.arr [JVal.intv 1]]]]]]]]]]])).2
      rfl,
   ((c7_check_depth_iff_depth_le_10
      (JVal.arr [JVal.arr [JVal.arr [JVal.arr [JVal.arr [JVal.arr [JVal.arr
        [JVal.arr [JVal.arr [JVal.arr [JVal.intv 1]]]]]]]]]])).1).mpr
      (by decide)⟩


/-- C1 (confirmed): with dangerous_mode=false, each state-mutating
operation fails with the permission error and dispatches nothing to the
store, whatever the payload and the store's would-be responses — so the
failure precedes any validator, sanitizer or store interaction and does
not depend on the input's validity. -/
theorem c1_write_ops_fail_permission_denied
    (document query update keys : Obj) (upsert : Bool) (storeId : PyStr)
    (ack1 ack2 ack3 : Bool) (m mm sd : Int) (uid : Option PyStr)
    (nm : PyStr) :
    insert_document false document storeId ack1
        = (.error .permissionError, []) ∧
    update_document false query update upsert m mm uid ack2
        = (.error .permissionError, []) ∧
    delete_document false query sd ack3 = (.error .permissionError, []) ∧
    create_index false keys nm = (.error .permissionError, []) :=
  ⟨rfl, rfl, rfl, rfl⟩

/-! ### String sanitization lemmas -/

/-- Any list splits as a satisfying prefix followed by its
`dropWhile`. -/
theorem dropWhile_decomp (p : Char → Bool) :
    ∀ (l : PyStr), ∃ t, l = t ++ l.dropWhile p := by
  intro l
  induction l with
  | nil => exact ⟨[], rfl⟩
  | cons a l ih =>
    by_cases ha : p a
    · obtain ⟨t, ht⟩ := ih
      refine ⟨a :: t, ?_⟩
      rw [List.dropWhile_cons_of_pos ha, List.cons_append, ← ht]
    · exact ⟨[], by simp [List.dropWhile, ha]⟩

/-- The head surviving `dropWhile` fails the predicate. -/
theorem dropWhile_head_false (p : Char → Bool) :
    ∀ (l : PyStr) (c : Char) (w : PyStr),
      l.dropWhile p = c :: w → p c = false := by
  intro l
  induction l with
  | nil => intro c w h; cases h
  | cons a l ih =>
    intro c w h
    by_cases ha : p a
    · rw [List.dropWhile_cons_of_pos ha] at h
      exact ih c w h
    · rw [List.dropWhile_cons_of_neg ha] at h
      cases h
      exact Bool.eq_false_iff.mpr ha

/-- Any list splits as its `rdropWhile` followed by a satisfying
suffix. -/
theorem rdropWhile_decomp (p : Char → Bool) (l : PyStr) :
    ∃ t, l = l.rdropWhile p ++ t := by
  obtain ⟨t, ht⟩ := dropWhile_decomp p l.reverse
  refine ⟨t.reverse, ?_⟩
  unfold List.rdropWhile
  calc l = l.reverse.reverse := (List.reverse_reverse l).symm
    _ = (t ++ l.reverse.dropWhile p).reverse := by rw [← ht]
    _ = (l.reverse.dropWhile p).reverse ++ t.reverse := by
          rw [List.reverse_append]

/-- After a leading `dropWhile`, a further trailing `rdropWhile` leaves
nothing for `dropWhile` to remove. -/
theorem dropWhile_of_strip (p : Char → Bool) (l : PyStr) :
    ((l.dropWhile p).rdropWhile p).dropWhile p
      = (l.dropWhile p).rdropWhile p := by
  cases hr : (l.dropWhile p).rdropWhile p with
  | nil => rfl
  | cons c w =>
    obtain ⟨t, ht⟩ := rdropWhile_decomp p (l.dropWhile p)
    rw [hr] at ht
    have hc : p c = false := dropWhile_head_false p l c (w ++ t) ht
    rw [List.dropWhile_cons_of_neg (by simp [hc])]

/-- Python `strip` is idempotent. -/
theorem pyStrip_idempotent (l : PyStr) : pyStrip (pyStrip l) = pyStrip l := by
  unfold pyStrip
  rw [dropWhile_of_strip isPySpace l, List.rdropWhile_idempotent]

/-- Every character of the stripped string occurs in the original. -/
theorem pyStrip_subset {c : Char} {l : PyStr} (h : c ∈ pyStrip l) : c ∈ l := by
  unfold pyStrip at h
  obtain ⟨t2, ht2⟩ := rdropWhile_decomp isPySpace (l.dropWhile isPySpace)
  obtain ⟨t1, ht1⟩ := dropWhile_decomp isPySpace l
  have h2 : c ∈ l.dropWhile isPySpace := by
    rw [ht2]; exact List.mem_append.mpr (Or.inl h)
  rw [ht1]
  exact List.mem_append.mpr (Or.inr h2)

/-- Stripping does not lengthen a string. -/
theorem pyStrip_length_le (l : PyStr) : (pyStrip l).length ≤ l.length := by
  obtain ⟨t2, ht2⟩ := rdropWhile_decomp isPySpace (l.dropWhile isPySpace)
  obtain ⟨t1, ht1⟩ := dropWhile_decomp isPySpace l
  unfold pyStrip
  have e2 : (l.dropWhile isPySpace).length
      = ((l.dropWhile isPySpace).rdropWhile isPySpace).length + t2.length := by
    conv_lhs => rw [ht2]
    exact List.length_append _ _
  have e1 : l.length = t1.length + (l.dropWhile isPySpace).length := by
    conv_lhs => rw [ht1]
    exact List.length_append _ _
  omega

/-- C8 (confirmed): `sanitize_string` is idempotent — whenever it
succeeds, its output is a fixed point. -/
theorem c8_sanitize_string_idempotent (s r : PyStr)
    (h : sanitize_string s = .ok r) : sanitize_string r = .ok r := by
  unfold sanitize_string at h
  by_cases hl : s.length > MAX_STRING_LENGTH
  · rw [if_pos hl] at h; cases h
  · rw [if_neg hl] at h
    have hr : r = pyStrip (removeCtl s) := by
      cases h; rfl
    have hlen : r.length ≤ MAX_STRING_LENGTH := by
      have h1 : (removeCtl s).length ≤ s.length := List.length_filter_le _ s
      have h2 := pyStrip_length_le (removeCtl s)
      have h3 : r.length = (pyStrip (removeCtl s)).length := by rw [hr]
      omega
    have hclean : removeCtl r = r := by
      apply List.filter_eq_self.mpr
      intro c hc
      have : c ∈ removeCtl s := pyStrip_subset (hr ▸ hc)
      exact (List.mem_filter.mp this).2
    unfold sanitize_string
    rw [if_neg (by omega)]
    rw [hclean, hr, pyStrip_idempotent]

/-- Witness for C8 at `"  a\u0000b "`: one application gives `"ab"`, and
re-sanitizing `"ab"` returns it unchanged. -/
theorem c8_sanitize_string_idempotent_witness :
    sanitize_string ([' ', ' ', 'a', Char.ofNat 0, 'b', ' ']) = .ok ['a', 'b'] ∧
    sanitize_string ['a', 'b'] = .ok ['a', 'b'] :=
  ⟨rfl, c8_sanitize_string_idempotent [' ', ' ', 'a', Char.ofNat 0, 'b', ' ']
      ['a', 'b'] rfl⟩


/-- A clean string is a fixed point of `sanitize_string`. -/
theorem sanitize_string_clean {s : PyStr} (h : cleanStr s = true) :
    sanitize_string s = .ok s := by
  unfold cleanStr at h
  simp only [Bool.and_eq_true, decide_eq_true_eq] at h
  obtain ⟨h1, h2⟩ := h
  unfold sanitize_string
  rw [if_neg (by omega), h2]

mutual
/-- A mapping whose strings are all clean is a fixed point of
`_sanitize_dict`. -/
theorem sanitizeDict_clean : ∀ (fs : Obj),
    fieldsClean fs = true → sanitizeDict fs = .ok fs
  | [], _ => rfl
  | (k, v) :: rest, h => by
    unfold fieldsClean at h
    simp only [Bool.and_eq_true] at h
    obtain ⟨⟨hk, hv⟩, hrest⟩ := h
    unfold sanitizeDict
    rw [sanitize_string_clean hk, sanitizeValue_clean v hv,
      sanitizeDict_clean rest hrest]

/-- The `sanitizeDict_clean`, value form. -/
theorem sanitizeValue_clean : ∀ (v : JVal),
    vClean v = true → sanitizeValue v = .ok v
  | .str s, h => by
    unfold sanitizeValue
    rw [sanitize_string_clean h]
  | .obj fs, h => by
    unfold sanitizeValue
    rw [sanitizeDict_clean fs h]
  | .arr xs, h => by
    unfold sanitizeValue
    rw [sanitizeItems_clean xs h]
  | .intv _, _ => rfl
  | .boolv _, _ => rfl
  | .nullv, _ => rfl
  | .oid _, _ => rfl

/-- The `sanitizeDict_clean`, sequence-elements form. -/
theorem sanitizeItems_clean : ∀ (xs : List JVal),
    itemsClean xs = true → sanitizeItems xs = .ok xs
  | [], _ => rfl
  | .obj fs :: rest, h => by
    unfold itemsClean vClean at h
    simp only [Bool.and_eq_true] at h
    obtain ⟨hf, hrest⟩ := h
    unfold sanitizeItems
    rw [sanitizeDict_clean fs hf, sanitizeItems_clean rest hrest]
  | .str s :: rest, h => by
    unfold itemsClean vClean at h
    simp only [Bool.and_eq_true] at h
    obtain ⟨hs, hrest⟩ := h
    unfold sanitizeItems
    rw [sanitize_string_clean hs, sanitizeItems_clean rest hrest]
  | .intv n :: rest, h => by
    unfold itemsClean at h
    simp only [Bool.and_eq_true] at h
    unfold sanitizeItems
    rw [sanitizeItems_clean rest h.2]
  | .boolv b :: rest, h => by
    unfold itemsClean at h
    simp only [Bool.and_eq_true] at h
    unfold sanitizeItems
    rw [sanitizeItems_clean rest h.2]
  | .nullv :: rest, h => by
    unfold itemsClean at h
    simp only [Bool.and_eq_true] at h
    unfold sanitizeItems
    rw [sanitizeItems_clean rest h.2]
  | .oid s :: rest, h => by
    unfold itemsClean at h
    simp only [Bool.and_eq_true] at h
    unfold sanitizeItems
    rw [sanitizeItems_clean rest h.2]
  | .arr ys :: rest, h => by
    unfold itemsClean at h
    simp only [Bool.and_eq_true] at h
    unfold sanitizeItems
    rw [sanitizeItems_clean rest h.2]
end

mutual
/-- Successful sanitization preserves the structural shape of a
mapping (entry count, order, and each value's shape). -/
theorem sanitizeDict_shape : ∀ (fs gs : Obj),
    sanitizeDict fs = .ok gs → shapeOfFields gs = shapeOfFields fs
  | [], gs, h => by
    cases h; rfl
  | (k, v) :: rest, gs, h => by
    unfold sanitizeDict at h
    cases hk : sanitize_string k with
    | error e => rw [hk] at h; cases h
    | ok ck =>
      rw [hk] at h
      cases hv : sanitizeValue v with
      | error e => rw [hv] at h; cases h
      | ok cv =>
        rw [hv] at h
        cases hrest : sanitizeDict rest with
        | error e => rw [hrest] at h; cases h
        | ok crest =>
          rw [hrest] at h
          cases h
          unfold shapeOfFields
          rw [sanitizeValue_shape v cv hv, sanitizeDict_shape rest crest hrest]

/-- The `sanitizeDict_shape`, value form. -/
theorem sanitizeValue_shape : ∀ (v w : JVal),
    sanitizeValue v = .ok w → shapeOf w = shapeOf v
  | .str s, w, h => by
    unfold sanitizeValue at h
    cases hs : sanitize_string s with
    | error e => rw [hs] at h; cases h
    | ok cs => rw [hs] at h; cases h; rfl
  | .obj fs, w, h => by
    unfold sanitizeValue at h
    cases hf : sanitizeDict fs with
    | error e => rw [hf] at h; cases h
    | ok cfs =>
      rw [hf] at h
      cases h
      unfold shapeOf
      rw [sanitizeDict_shape fs cfs hf]
  | .arr xs, w, h => by
    unfold sanitizeValue at h
    cases hx : sanitizeItems xs with
    | error e => rw [hx] at h; cases h
    | ok cxs =>
      rw [hx] at h
      cases h
      unfold shapeOf
      rw [sanitizeItems_shape xs cxs hx]
  | .intv n, w, h => by cases h; rfl
  | .boolv b, w, h => by cases h; rfl
  | .nullv, w, h => by cases h; rfl
  | .oid s, w, h => by cases h; rfl

/-- The `sanitizeDict_shape`, sequence-elements form. -/
theorem sanitizeItems_shape : ∀ (xs ys : List JVal),
    sanitizeItems xs = .ok ys → shapeOfItems ys = shapeOfItems xs
  | [], ys, h => by cases h; rfl
  | .obj fs :: rest, ys, h => by
    unfold sanitizeItems at h
    cases hf : sanitizeDict fs with
    | error e => rw [hf] at h; cases h
    | ok cfs =>
      rw [hf] at h
      cases hrest : sanitizeItems rest with
      | error e => rw [hrest] at h; cases h
      | ok crest =>
        rw [hrest] at h
        cases h
        unfold shapeOfItems shapeOf
        rw [sanitizeDict_shape fs cfs hf, sanitizeItems_shape rest crest hrest]
  | .str s :: rest, ys, h => by
    unfold sanitizeItems at h
    cases hs : sanitize_string s with
    | error e => rw [hs] at h; cases h
    | ok cs =>
      rw [hs] at h
      cases hrest : sanitizeItems rest with
      | error e => rw [hrest] at h; cases h
      | ok crest =>
        rw [hrest] at h
        cases h
        unfold shapeOfItems shapeOf
        rw [sanitizeItems_shape rest crest hrest]
  | .intv n :: rest, ys, h => by
    unfold sanitizeItems at h
    cases hrest : sanitizeItems rest with
    | error e => rw [hrest] at h; cases h
    | ok crest =>
      rw [hrest] at h
      cases h
      unfold shapeOfItems
      rw [sanitizeItems_shape rest crest hrest]
  | .boolv b :: rest, ys, h => by
    unfold sanitizeItems at h
    cases hrest : sanitizeItems rest with
    | error e => rw [hrest] at h; cases h
    | ok crest =>
      rw [hrest] at h
      cases h
      unfold shapeOfItems
      rw [sanitizeItems_shape rest crest hrest]
  | .nullv :: rest, ys, h => by
    unfold sanitizeItems at h
    cases hrest : sanitizeItems rest with
    | error e => rw [hrest] at h; cases h
    | ok crest =>
      rw [hrest] at h
      cases h
      unfold shapeOfItems
      rw [sanitizeItems_shape rest crest hrest]
  | .oid s :: rest, ys, h => by
    unfold sanitizeItems at h
    cases hrest : sanitizeItems rest with
    | error e => rw [hrest] at h; cases h
    | ok crest =>
      rw [hrest] at h
      cases h
      unfold shapeOfItems
      rw [sanitizeItems_shape rest crest hrest]
  | .arr zs :: rest, ys, h => by
    unfold sanitizeItems at h
    cases hrest : sanitizeItems rest with
    | error e => rw [hrest] at h; cases h
    | ok crest =>
      rw [hrest] at h
      cases h
      unfold shapeOfItems
      rw [sanitizeItems_shape rest crest hrest]
end

/-- C6, as stated, is false: a string held inside a sequence nested
directly inside another sequence is NOT cleaned — the mapping below
passes through `_sanitize_dict` unchanged although its nested string is a
lone NUL character, which `sanitize_string` itself would clean to the
empty string. -/
theorem c6_counterexample :
    sanitizeDict [("k".toList, JVal.arr [JVal.arr [JVal.str [Char.ofNat 0]]])]
      = .ok [("k".toList, JVal.arr [JVal.arr [JVal.str [Char.ofNat 0]]])] ∧
    sanitize_string [Char.ofNat 0] = .ok [] :=
  ⟨rfl, rfl⟩

/-- On success, the output of `sanitize_string` is itself clean: within
the length bound, control-free and whitespace-trimmed. -/
theorem sanitize_string_ok_clean {s r : PyStr} (h : sanitize_string s = .ok r) :
    cleanStr r = true := by
  unfold sanitize_string at h
  by_cases hl : s.length > MAX_STRING_LENGTH
  · rw [if_pos hl] at h; cases h
  · rw [if_neg hl] at h
    have hr : r = pyStrip (removeCtl s) := by cases h; rfl
    unfold cleanStr
    simp only [Bool.and_eq_true, decide_eq_true_eq]
    constructor
    · have h1 : (removeCtl s).length ≤ s.length := List.length_filter_le _ s
      have h2 := pyStrip_length_le (removeCtl s)
      have h3 : r.length = (pyStrip (removeCtl s)).length := by rw [hr]
      omega
    · have hclean : removeCtl r = r := by
        apply List.filter_eq_self.mpr
        intro c hc
        have : c ∈ removeCtl s := pyStrip_subset (hr ▸ hc)
        exact (List.mem_filter.mp this).2
      rw [hclean, hr, pyStrip_idempotent]

mutual
/-- On success, every string at a position `_sanitize_dict` cleans —
keys, string values, and mapping/string sequence elements, recursively —
is clean in the output, however dirty the input was. -/
theorem sanitizeDict_touchedClean : ∀ (fs gs : Obj),
    sanitizeDict fs = .ok gs → touchedCleanFields gs = true
  | [], gs, h => by cases h; rfl
  | (k, v) :: rest, gs, h => by
    unfold sanitizeDict at h
    cases hk : sanitize_string k with
    | error e => rw [hk] at h; cases h
    | ok ck =>
      rw [hk] at h
      cases hv : sanitizeValue v with
      | error e => rw [hv] at h; cases h
      | ok cv =>
        rw [hv] at h
        cases hrest : sanitizeDict rest with
        | error e => rw [hrest] at h; cases h
        | ok crest =>
          rw [hrest] at h
          cases h
          unfold touchedCleanFields
          rw [sanitize_string_ok_clean hk,
            sanitizeValue_touchedClean v cv hv,
            sanitizeDict_touchedClean rest crest hrest]
          rfl

/-- The `sanitizeDict_touchedClean` property, value form. -/
theorem sanitizeValue_touchedClean : ∀ (v w : JVal),
    sanitizeValue v = .ok w → touchedCleanVal w = true
  | .str s, w, h => by
    unfold sanitizeValue at h
    cases hs : sanitize_string s with
    | error e => rw [hs] at h; cases h
    | ok cs =>
      rw [hs] at h
      cases h
      exact sanitize_string_ok_clean hs
  | .obj fs, w, h => by
    unfold sanitizeValue at h
    cases hf : sanitizeDict fs with
    | error e => rw [hf] at h; cases h
    | ok cfs =>
      rw [hf] at h
      cases h
      exact sanitizeDict_touchedClean fs cfs hf
  | .arr xs, w, h => by
    unfold sanitizeValue at h
    cases hx : sanitizeItems xs with
    | error e => rw [hx] at h; cases h
    | ok cxs =>
      rw [hx] at h
      cases h
      exact sanitizeItems_touchedClean xs cxs hx
  | .intv n, w, h => by cases h; rfl
  | .boolv b, w, h => by cases h; rfl
  | .nullv, w, h => by cases h; rfl
  | .oid s, w, h => by cases h; rfl

/-- The `sanitizeDict_touchedClean` property, sequence-elements form. -/
theorem sanitizeItems_touchedClean : ∀ (xs ys : List JVal),
    sanitizeItems xs = .ok ys → touchedCleanItems ys = true
  | [], ys, h => by cases h; rfl
  | .obj fs :: rest, ys, h => by
    unfold sanitizeItems at h
    cases hf : sanitizeDict fs with
    | error e => rw [hf] at h; cases h
    | ok cfs =>
      rw [hf] at h
      cases hrest : sanitizeItems rest with
      | error e => rw [hrest] at h; cases h
      | ok crest =>
        rw [hrest] at h
        cases h
        unfold touchedCleanItems
        rw [sanitizeDict_touchedClean fs cfs hf,
          sanitizeItems_touchedClean rest crest hrest]
        rfl
  | .str s :: rest, ys, h => by
    unfold sanitizeItems at h
    cases hs : sanitize_string s with
    | error e => rw [hs] at h; cases h
    | ok cs =>
      rw [hs] at h
      cases hrest : sanitizeItems rest with
      | error e => rw [hrest] at h; cases h
      | ok crest =>
        rw [hrest] at h
        cases h
        unfold touchedCleanItems
        rw [sanitize_string_ok_clean hs,
          sanitizeItems_touchedClean rest crest hrest]
        rfl
  | .intv n :: rest, ys, h => by
    unfold sanitizeItems at h
    cases hrest : sanitizeItems rest with
    | error e => rw [hrest] at h; cases h
    | ok crest =>
      rw [hrest] at h
      cases h
      unfold touchedCleanItems
      exact sanitizeItems_touchedClean rest crest hrest
  | .boolv b :: rest, ys, h => by
    unfold sanitizeItems at h
    cases hrest : sanitizeItems rest with
    | error e => rw [hrest] at h; cases h
    | ok crest =>
      rw [hrest] at h
      cases h
      unfold touchedCleanItems
      exact sanitizeItems_touchedClean rest crest hrest
  | .nullv :: rest, ys, h => by
    unfold sanitizeItems at h
    cases hrest : sanitizeItems rest with
    | error e => rw [hrest] at h; cases h
    | ok crest =>
      rw [hrest] at h
      cases h
      unfold touchedCleanItems
      exact sanitizeItems_touchedClean rest crest hrest
  | .oid s :: rest, ys, h => by
    unfold sanitizeItems at h
    cases hrest : sanitizeItems rest with
    | error e => rw [hrest] at h; cases h
    | ok crest =>
      rw [hrest] at h
      cases h
      unfold touchedCleanItems
      exact sanitizeItems_touchedClean rest crest hrest
  | .arr zs :: rest, ys, h => by
    unfold sanitizeItems at h
    cases hrest : sanitizeItems rest with
    | error e => rw [hrest] at h; cases h
    | ok crest =>
      rw [hrest] at h
      cases h
      unfold touchedCleanItems
      exact sanitizeItems_touchedClean rest crest hrest
end

/-- On success, `_sanitize_dict` rebuilds entry by entry, in order: each
output key is the `sanitize_string`-cleaning of the corresponding input
key and each output value results from the value rule on the
corresponding input value. -/
theorem sanitizeDict_rebuild : ∀ (fs gs : Obj), sanitizeDict fs = .ok gs →
    List.Forall₂ (fun p q => sanitize_string p.1 = .ok q.1 ∧
      sanitizeValue p.2 = .ok q.2) fs gs
  | [], gs, h => by cases h; exact List.Forall₂.nil
  | (k, v) :: rest, gs, h => by
    unfold sanitizeDict at h
    cases hk : sanitize_string k with
    | error e => rw [hk] at h; cases h
    | ok ck =>
      rw [hk] at h
      cases hv : sanitizeValue v with
      | error e => rw [hv] at h; cases h
      | ok cv =>
        rw [hv] at h
        cases hrest : sanitizeDict rest with
        | error e => rw [hrest] at h; cases h
        | ok crest =>
          rw [hrest] at h
          cases h
          exact List.Forall₂.cons ⟨hk, hv⟩
            (sanitizeDict_rebuild rest crest hrest)

/-- C6 (amended): `_sanitize_dict` rebuilds a mapping recursively,
cleaning every string-typed key and value; sequence elements that are
mappings or strings are cleaned under the same rule, while any other
sequence element — nested sequences and their contents included — passes
through unchanged; non-string, non-container scalars pass through
unchanged; and key order and structural shape are preserved exactly
except for string edits.  Formally: on success every string at a cleaned
position of the output is clean, however dirty the input; the output is
rebuilt entry by entry, in order, keys through `sanitize_string` and
values through the value rule; cleaning a string within the length bound
removes its control characters and trims its whitespace; a cleaned
string value is the cleaned string; string and mapping sequence elements
go through `sanitize_string` / `_sanitize_dict` respectively; a mapping
whose strings are already clean is returned verbatim; shapes are
preserved; scalars and nested sequences pass through. -/
theorem c6_sanitize_structure_behavior :
    (∀ (fs gs : Obj), sanitizeDict fs = .ok gs →
      touchedCleanFields gs = true) ∧
    (∀ (fs gs : Obj), sanitizeDict fs = .ok gs →
      List.Forall₂ (fun p q => sanitize_string p.1 = .ok q.1 ∧
        sanitizeValue p.2 = .ok q.2) fs gs) ∧
    (∀ (s : PyStr), s.length ≤ MAX_STRING_LENGTH →
      sanitize_string s = .ok (pyStrip (removeCtl s))) ∧
    (∀ (s cs : PyStr), sanitize_string s = .ok cs →
      sanitizeValue (.str s) = .ok (.str cs)) ∧
    (∀ (s : PyStr) (rest : List JVal), sanitizeItems (.str s :: rest)
      = (sanitize_string s).bind (fun cs =>
          (sanitizeItems rest).map (fun cr => .str cs :: cr))) ∧
    (∀ (fs : Obj) (rest : List JVal), sanitizeItems (.obj fs :: rest)
      = (sanitizeDict fs).bind (fun cfs =>
          (sanitizeItems rest).map (fun cr => .obj cfs :: cr))) ∧
    (∀ (fs : Obj), fieldsClean fs = true → sanitizeDict fs = .ok fs) ∧
    (∀ (fs gs : Obj), sanitizeDict fs = .ok gs →
      shapeOfFields gs = shapeOfFields fs) ∧
    (∀ (n : Int), sanitizeValue (.intv n) = .ok (.intv n)) ∧
    (∀ (b : Bool), sanitizeValue (.boolv b) = .ok (.boolv b)) ∧
    sanitizeValue .nullv = .ok .nullv ∧
    (∀ (s : PyStr), sanitizeValue (.oid s) = .ok (.oid s)) ∧
    (∀ (zs rest : List JVal), sanitizeItems (.arr zs :: rest)
      = (sanitizeItems rest).map (fun crest => .arr zs :: crest)) := by
  refine ⟨sanitizeDict_touchedClean, sanitizeDict_rebuild, ?_, ?_, ?_, ?_,
    sanitizeDict_clean, sanitizeDict_shape, fun n => rfl, fun b => rfl,
    rfl, fun s => rfl, ?_⟩
  · intro s hle
    unfold sanitize_string
    rw [if_neg (by omega)]
  · intro s cs h
    have hstep : sanitizeValue (.str s) =
        match sanitize_string s with
        | .error e => .error e
        | .ok cs => .ok (.str cs) := rfl
    rw [hstep, h]
  · intro s rest
    have hstep : sanitizeItems (.str s :: rest) =
        match sanitize_string s with
        | .error e => .error e
        | .ok cs =>
          match sanitizeItems rest with
          | .error e => .error e
          | .ok cr => .ok (.str cs :: cr) := rfl
    rw [hstep]
    cases hs : sanitize_string s with
    | error e => rfl
    | ok cs => cases hr : sanitizeItems rest <;> rfl
  · intro fs rest
    have hstep : sanitizeItems (.obj fs :: rest) =
        match sanitizeDict fs with
        | .error e => .error e
        | .ok cfs =>
          match sanitizeItems rest with
          | .error e => .error e
          | .ok cr => .ok (.obj cfs :: cr) := rfl
    rw [hstep]
    cases hf : sanitizeDict fs with
    | error e => rfl
    | ok cfs => cases hr : sanitizeItems rest <;> rfl
  · intro zs rest
    have hstep : sanitizeItems (.arr zs :: rest) =
        match sanitizeItems rest with
        | .error e => .error e
        | .ok crest => .ok (.arr zs :: crest) := rfl
    rw [hstep]
    cases hrest : sanitizeItems rest <;> rfl

/-- Witness for C6 (amended): a dirty mapping — NUL in the key, padded
string value — comes out with every touched string cleaned and rebuilt
in place; a clean ASCII mapping is returned verbatim; shapes survive a
string edit. -/
theorem c6_sanitize_structure_behavior_witness :
    touchedCleanFields [("k".toList, JVal.str "v".toList)] = true ∧
    List.Forall₂ (fun p q => sanitize_string p.1 = .ok q.1 ∧
        sanitizeValue p.2 = .ok q.2)
      [(['k', Char.ofNat 0], JVal.str [' ', 'v', ' '])]
      [("k".toList, JVal.str "v".toList)] ∧
    sanitizeDict [("name".toList, JVal.str "alice".toList),
                  ("age".toList, JVal.intv 30)]
      = .ok [("name".toList, JVal.str "alice".toList),
             ("age".toList, JVal.intv 30)] ∧
    shapeOfFields [("name".toList, JVal.str "ali".toList)]
      = shapeOfFields [("name".toList, JVal.str " ali ".toList)] :=
  ⟨c6_sanitize_structure_behavior.1
      [(['k', Char.ofNat 0], JVal.str [' ', 'v', ' '])]
      [("k".toList, JVal.str "v".toList)] rfl,
   c6_sanitize_structure_behavior.2.1
      [(['k', Char.ofNat 0], JVal.str [' ', 'v', ' '])]
      [("k".toList, JVal.str "v".toList)] rfl,
   c6_sanitize_structure_behavior.2.2.2.2.2.2.1
      [("name".toList, JVal.str "alice".toList),
       ("age".toList, JVal.intv 30)] rfl,
   c6_sanitize_structure_behavior.2.2.2.2.2.2.2.1
      [("name".toList, JVal.str " ali ".toList)]
      [("name".toList, JVal.str "ali".toList)] rfl⟩

/-- C9 (confirmed): for a pipeline that validates and sanitizes, run with
the default bound 100: if no sanitized stage has a `$limit` key, exactly
one implicit `{"$limit": 100}` stage is appended at the end of the
sanitized pipeline as dispatched to the store (and echoed in the result);
if some stage has a `$limit` key, the sanitized pipeline is dispatched
unmodified. -/
theorem c9_default_limit_appended (allow : Bool) (pipeline sp : List Obj)
    (maxStages : Nat) (storeResults : List Obj)
    (hv : validate_pipeline pipeline allow maxStages = .ok ())
    (hs : sanitizePipeline pipeline = .ok sp) :
    (hasLimitStage sp = false →
      (aggregate_pipeline allow pipeline 100 maxStages storeResults).2
        = [.aggregateCall (sp ++ [limitStage 100])]) ∧
    (hasLimitStage sp = true →
      (aggregate_pipeline allow pipeline 100 maxStages storeResults).2
        = [.aggregateCall sp]) := by
  unfold aggregate_pipeline
  rw [hv, hs]
  constructor <;> intro h <;>
    simp [h, limitStage, (by norm_num : (100:Int) > 0)]

/-- Witness for C9: a lone `$match` pipeline gets `{"$limit": 100}`
appended; a lone `$limit` pipeline is dispatched unmodified. -/
theorem c9_default_limit_appended_witness :
    (aggregate_pipeline false [[("$match".toList, JVal.obj [])]] 100 20 []).2
      = [.aggregateCall [[("$match".toList, JVal.obj [])],
                         [("$limit".toList, JVal.intv 100)]]] ∧
    (aggregate_pipeline false [[("$limit".toList, JVal.intv 5)]] 100 20 []).2
      = [.aggregateCall [[("$limit".toList, JVal.intv 5)]]] :=
  ⟨(c9_default_limit_appended false [[("$match".toList, JVal.obj [])]]
      [[("$match".toList, JVal.obj [])]] 20 [] rfl rfl).1 rfl,
   (c9_default_limit_appended false [[("$limit".toList, JVal.intv 5)]]
      [[("$limit".toList, JVal.intv 5)]] 20 [] rfl rfl).2 rfl⟩

/-- C10, as stated, is false in its second half: with limit = 0 and a
store answering one document for the unbounded pipeline, the reported
result set is that document — not empty — and hasMore is false. -/
theorem c10_counterexample :
    (aggregate_pipeline false [[("$match".toList, JVal.obj [])]] 0 20
        [[("x".toList, JVal.intv 1)]]).1
      = .ok { results := [[("x".toList, JVal.intv 1)]], count := 1,
              pipeline := [[("$match".toList, JVal.obj [])]],
              hasMore := false } ∧
    (aggregate_pipeline false [[("$match".toList, JVal.obj [])]] 0 20
        [[("x".toList, JVal.intv 1)]]).2
      = [.aggregateCall [[("$match".toList, JVal.obj [])]]] :=
  ⟨rfl, rfl⟩

/-- C10 (amended): with limit ≤ 0 a validated pipeline is dispatched
exactly as sanitized — no limiting stage is appended even when none is
present — every store document is reported (no truncation by this
layer), and hasMore = (count == limit); so with limit = 0, hasMore is
true iff the store returned no documents. -/
theorem c10_nonpositive_limit_dispatches_unbounded (allow : Bool)
    (pipeline sp : List Obj) (maxStages : Nat) (storeResults : List Obj)
    (limit : Int)
    (hv : validate_pipeline pipeline allow maxStages = .ok ())
    (hs : sanitizePipeline pipeline = .ok sp)
    (hl : limit ≤ 0) :
    (aggregate_pipeline allow pipeline limit maxStages storeResults).2
      = [.aggregateCall sp] ∧
    (aggregate_pipeline allow pipeline limit maxStages storeResults).1
      = .ok { results := storeResults.map normalizeId,
              count := storeResults.length,
              pipeline := sp,
              hasMore := decide ((storeResults.length : Int) = limit) } := by
  unfold aggregate_pipeline
  rw [hv, hs]
  have hcond : ¬(¬hasLimitStage sp = true ∧ limit > 0) := by
    rintro ⟨_, h2⟩; omega
  simp only [hcond, if_false, gt_iff_lt, List.length_map]
  exact ⟨trivial, trivial⟩

/-- Witness for C10 (amended): limit = 0, a `$match`-only pipeline, store
answering one document — dispatched with no limiting stage, the document
reported, hasMore false. -/
theorem c10_nonpositive_limit_dispatches_unbounded_witness :
    (aggregate_pipeline true [[("$match".toList, JVal.obj [])]] 0 20
        [[("y".toList, JVal.boolv true)]]).2
      = [.aggregateCall [[("$match".toList, JVal.obj [])]]] ∧
    (aggregate_pipeline true [[("$match".toList, JVal.obj [])]] 0 20
        [[("y".toList, JVal.boolv true)]]).1
      = .ok { results := [[("y".toList, JVal.boolv true)]].map normalizeId,
              count := 1, pipeline := [[("$match".toList, JVal.obj [])]],
              hasMore := decide (((1:Nat) : Int) = 0) } :=
  ⟨(c10_nonpositive_limit_dispatches_unbounded true
      [[("$match".toList, JVal.obj [])]] [[("$match".toList, JVal.obj [])]]
      20 [[("y".toList, JVal.boolv true)]] 0 rfl rfl (by norm_num)).1,
   (c10_nonpositive_limit_dispatches_unbounded true
      [[("$match".toList, JVal.obj [])]] [[("$match".toList, JVal.obj [])]]
      20 [[("y".toList, JVal.boolv true)]] 0 rfl rfl (by norm_num)).2⟩


/-- C5, as stated, is false: in `find_documents` a validation failure —
here the unknown operator `$custom` — reaches the caller as
`RuntimeError` (the broad `except Exception` clause re-raises it), not
with its `ValueError` class preserved. -/
theorem c5_counterexample :
    (find_documents false [("$custom".toList, JVal.intv 1)] none none
        100 0 []).1
      = .error (.runtimeError (.valueError
          (.unknownOperator "$custom".toList))) ∧
    (find_documents false [("$custom".toList, JVal.intv 1)] none none
        100 0 []).1
      ≠ .error (.valueError (.unknownOperator "$custom".toList)) :=
  ⟨rfl, fun h => by
    have h2 := Except.error.inj (((rfl :
      (find_documents false [("$custom".toList, JVal.intv 1)] none none
        100 0 []).1 = .error (.runtimeError (.valueError
          (.unknownOperator "$custom".toList)))).symm).trans h)
    exact PyErr.noConfusion h2⟩

/-- C5 (amended): every ValidationError/SanitizationError/
PermissionDenied failure of the document and aggregation operations is
raised before any store interaction (the dispatched-call trace is empty
whenever an error is returned).  `find_one_document`, `count_documents`,
`insert_document`, `update_document`, `delete_document`,
`explain_aggregation` and `create_index` surface it with its class
preserved; `find_documents` and `aggregate_pipeline` re-raise it as
ExecutionFailed (`RuntimeError`) still carrying the original error — a
class downgrade, though not a silent loss. -/
theorem c5_gateway_errors_precede_store :
    (∀ (allow : Bool) (q : Obj) (proj sortp : Option Obj) (lim skip : Int)
        (docs : List Obj) (e : PyErr),
        (find_documents allow q proj sortp lim skip docs).1 = .error e →
        (find_documents allow q proj sortp lim skip docs).2 = [] ∧
        ∃ k, e = .runtimeError (.valueError k)) ∧
    (∀ (allow : Bool) (q : Obj) (proj : Option Obj) (d : Option Obj)
        (e : PyErr),
        (find_one_document allow q proj d).1 = .error e →
        (find_one_document allow q proj d).2 = [] ∧ ∃ k, e = .valueError k) ∧
    (∀ (allow : Bool) (q : Obj) (c : Int) (e : PyErr),
        (count_documents allow q c).1 = .error e →
        (count_documents allow q c).2 = [] ∧ ∃ k, e = .valueError k) ∧
    (∀ (allow : Bool) (d : Obj) (sid : PyStr) (ack : Bool) (e : PyErr),
        (insert_document allow d sid ack).1 = .error e →
        (insert_document allow d sid ack).2 = [] ∧
        (e = .permissionError ∨ ∃ k, e = .valueError k)) ∧
    (∀ (allow : Bool) (q u : Obj) (up : Bool) (m mm : Int)
        (uid : Option PyStr) (ack : Bool) (e : PyErr),
        (update_document allow q u up m mm uid ack).1 = .error e →
        (update_document allow q u up m mm uid ack).2 = [] ∧
        (e = .permissionError ∨ ∃ k, e = .valueError k)) ∧
    (∀ (allow : Bool) (q : Obj) (sd : Int) (ack : Bool) (e : PyErr),
        (delete_document allow q sd ack).1 = .error e →
        (delete_document allow q sd ack).2 = [] ∧
        (e = .permissionError ∨ ∃ k, e = .valueError k)) ∧
    (∀ (allow : Bool) (p : List Obj) (lim : Int) (ms : Nat)
        (res : List Obj) (e : PyErr),
        (aggregate_pipeline allow p lim ms res).1 = .error e →
        (aggregate_pipeline allow p lim ms res).2 = [] ∧
        ∃ k, e = .runtimeError (.valueError k)) ∧
    (∀ (allow : Bool) (p : List Obj) (plan : Option Obj) (e : PyErr),
        (explain_aggregation allow p plan).1 = .error e →
        (explain_aggregation allow p plan).2 = [] ∧ ∃ k, e = .valueError k) ∧
    (∀ (allow : Bool) (keys : Obj) (nm : PyStr) (e : PyErr),
        (create_index allow keys nm).1 = .error e →
        (create_index allow keys nm).2 = [] ∧ e = .permissionError) := by
  refine ⟨?_, ?_, ?_, ?_, ?_, ?_, ?_, ?_, ?_⟩
  · intro allow q proj sortp lim skip docs e h
    unfold find_documents at h ⊢
    cases hv : validate_query q allow with
    | error er =>
      rw [hv] at h
      exact ⟨rfl, er, (Except.error.inj h).symm⟩
    | ok u =>
      cases u
      rw [hv] at h
      cases hs : sanitize_query q with
      | error er =>
        rw [hs] at h
        exact ⟨rfl, er, (Except.error.inj h).symm⟩
      | ok qq =>
        rw [hs] at h
        exact absurd h (by simp)
  · intro allow q proj d e h
    unfold find_one_document at h ⊢
    cases hv : validate_query q allow with
    | error er =>
      rw [hv] at h
      exact ⟨rfl, er, (Except.error.inj h).symm⟩
    | ok u =>
      cases u
      rw [hv] at h
      cases hs : sanitize_query q with
      | error er =>
        rw [hs] at h
        exact ⟨rfl, er, (Except.error.inj h).symm⟩
      | ok qq =>
        rw [hs] at h
        exact absurd h (by simp)
  · intro allow q c e h
    unfold count_documents at h ⊢
    cases hv : validate_query q allow with
    | error er =>
      rw [hv] at h
      exact ⟨rfl, er, (Except.error.inj h).symm⟩
    | ok u =>
      cases u
      rw [hv] at h
      cases hs : sanitize_query q with
      | error er =>
        rw [hs] at h
        exact ⟨rfl, er, (Except.error.inj h).symm⟩
      | ok qq =>
        rw [hs] at h
        exact absurd h (by simp)
  · intro allow d sid ack e h
    cases allow with
    | false =>
      unfold insert_document at h ⊢
      rw [if_pos rfl] at h ⊢
      exact ⟨rfl, Or.inl (Except.error.inj h).symm⟩
    | true =>
      unfold insert_document at h ⊢
      rw [if_neg (by simp)] at h ⊢
      cases hs : sanitize_document d with
      | error er =>
        rw [hs] at h
        exact ⟨rfl, Or.inr ⟨er, (Except.error.inj h).symm⟩⟩
      | ok dd =>
        rw [hs] at h
        exact absurd h (by simp)
  · intro allow q u up m mm uid ack e h
    cases allow with
    | false =>
      unfold update_document at h ⊢
      rw [if_pos rfl] at h ⊢
      exact ⟨rfl, Or.inl (Except.error.inj h).symm⟩
    | true =>
      unfold update_document at h ⊢
      rw [if_neg (by simp)] at h ⊢
      cases hv : validate_query q true with
      | error er =>
        rw [hv] at h
        exact ⟨rfl, Or.inr ⟨er, (Except.error.inj h).symm⟩⟩
      | ok uu =>
        cases uu
        rw [hv] at h
        cases hs : sanitize_query q with
        | error er =>
          rw [hs] at h
          exact ⟨rfl, Or.inr ⟨er, (Except.error.inj h).symm⟩⟩
        | ok qq =>
          rw [hs] at h
          cases hd : sanitize_document u with
          | error er =>
            rw [hd] at h
            exact ⟨rfl, Or.inr ⟨er, (Except.error.inj h).symm⟩⟩
          | ok du =>
            rw [hd] at h
            exact absurd h (by simp)
  · intro allow q sd ack e h
    cases allow with
    | false =>
      unfold delete_document at h ⊢
      rw [if_pos rfl] at h ⊢
      exact ⟨rfl, Or.inl (Except.error.inj h).symm⟩
    | true =>
      unfold delete_document at h ⊢
      rw [if_neg (by simp)] at h ⊢
      cases hv : validate_query q true with
      | error er =>
        rw [hv] at h
        exact ⟨rfl, Or.inr ⟨er, (Except.error.inj h).symm⟩⟩
      | ok uu =>
        cases uu
        rw [hv] at h
        cases hs : sanitize_query q with
        | error er =>
          rw [hs] at h
          exact ⟨rfl, Or.inr ⟨er, (Except.error.inj h).symm⟩⟩
        | ok qq =>
          rw [hs] at h
          exact absurd h (by simp)
  · intro allow p lim ms res e h
    unfold aggregate_pipeline at h ⊢
    cases hv : validate_pipeline p allow ms with
    | error er =>
      rw [hv] at h
      exact ⟨rfl, er, (Except.error.inj h).symm⟩
    | ok u =>
      cases u
      rw [hv] at h
      cases hs : sanitizePipeline p with
      | error er =>
        rw [hs] at h
        exact ⟨rfl, er, (Except.error.inj h).symm⟩
      | ok sp =>
        rw [hs] at h
        exact absurd h (by simp)
  · intro allow p plan e h
    unfold explain_aggregation at h ⊢
    cases hv : validate_pipeline p allow 20 with
    | error er =>
      rw [hv] at h
      exact ⟨rfl, er, (Except.error.inj h).symm⟩
    | ok u =>
      cases u
      rw [hv] at h
      exact absurd h (by simp)
  · intro allow keys nm e h
    cases allow with
    | false =>
      unfold create_index at h ⊢
      rw [if_pos rfl] at h ⊢
      exact ⟨rfl, (Except.error.inj h).symm⟩
    | true =>
      unfold create_index at h ⊢
      rw [if_neg (by simp)] at h
      exact absurd h (by simp)

/-- Witness for C5 (amended): concrete gateway failures leave the store
untouched — an unknown operator in `find_one_document` (class preserved)
and in `find_documents` (wrapped), and a denied `create_index`. -/
theorem c5_gateway_errors_precede_store_witness :
    (find_one_document false [("$custom".toList, JVal.intv 1)] none none).2
      = [] ∧
    (find_documents false [("$custom".toList, JVal.intv 1)] none none
        100 0 []).2 = [] ∧
    (create_index false [("a".toList, JVal.intv 1)] "a_1".toList).2 = [] :=
  ⟨(c5_gateway_errors_precede_store.2.1 false
      [("$custom".toList, JVal.intv 1)] none none
      (.valueError (.unknownOperator "$custom".toList)) rfl).1,
   (c5_gateway_errors_precede_store.1 false
      [("$custom".toList, JVal.intv 1)] none none 100 0 []
      (.runtimeError (.valueError (.unknownOperator "$custom".toList)))
      rfl).1,
   (c5_gateway_errors_precede_store.2.2.2.2.2.2.2.2 false
      [("a".toList, JVal.intv 1)] "a_1".toList .permissionError rfl).1⟩

end MongoMcp
